import Mathlib

/-!
Shallow embedding of packages/react-scripts/config/jest/typescriptTransform.js,
a Jest transform that transpiles TypeScript sources and computes a cache key
for the transform result.  JavaScript values are modelled by the inductive
type JsValue.  The MD5 digest and the TypeScript compiler are external
libraries, not code of this repository; the embedded operations take them as
explicit function parameters, as they do the module-level constants THIS_FILE
and compilerConfig.
-/

/-- A JavaScript value as used by the transform module: null, booleans,
numbers (integers suffice for every configuration value involved), strings,
and objects modelled as ordered key-value lists with distinct keys. -/
inductive JsValue where
  | null : JsValue
  | bool : Bool → JsValue
  | num : Int → JsValue
  | str : String → JsValue
  | obj : List (String × JsValue) → JsValue

/-- JavaScript truthiness of a value, as used by the conditions
`if (options.instrument)`, `options.instrument ? .. : ..` and
`if (tsconfig && tsconfig.compilerOptions)` in the source. -/
def truthy : JsValue → Bool
  | JsValue.null => false
  | JsValue.bool b => b
  | JsValue.num n => n != 0
  | JsValue.str s => !s.isEmpty
  | JsValue.obj _ => true

/-- Property lookup on the key-value list of an object. -/
def getFieldList : List (String × JsValue) → String → Option JsValue
  | [], _ => none
  | (k, v) :: rest, key => if k = key then some v else getFieldList rest key

/-- JavaScript property read `v.key`: on an object, the value stored under
the key; on anything else, undefined (modelled as none).  The source only
reads properties of objects or of values guarded by a truthiness test. -/
def getField : JsValue → String → Option JsValue
  | JsValue.obj fs, key => getFieldList fs key
  | _, _ => none

/-- JavaScript truthiness of a possibly-undefined value: undefined is falsy. -/
def truthyOpt : Option JsValue → Bool
  | none => false
  | some v => truthy v

/-- Property assignment on the key-value list of an object: an existing key
is overwritten in place, a new key is appended, as in JavaScript. -/
def setFieldList : List (String × JsValue) → String → JsValue → List (String × JsValue)
  | [], key, v => [(key, v)]
  | (k, w) :: rest, key, v =>
    if k = key then (k, v) :: rest else (k, w) :: setFieldList rest key v

/-- JavaScript property assignment `v.key = x` on an object; a non-object is
returned unchanged (the source only assigns to objects). -/
def setField : JsValue → String → JsValue → JsValue
  | JsValue.obj fs, key, v => JsValue.obj (setFieldList fs key v)
  | w, _, _ => w

/-- Removal of a key from the key-value list of an object, as done by the
JavaScript delete operator. -/
def deleteFieldList : List (String × JsValue) → String → List (String × JsValue)
  | [], _ => []
  | (k, w) :: rest, key =>
    if k = key then deleteFieldList rest key else (k, w) :: deleteFieldList rest key

/-- JavaScript `delete v.key` on an object; a non-object is returned
unchanged. -/
def deleteField : JsValue → String → JsValue
  | JsValue.obj fs, key => JsValue.obj (deleteFieldList fs key)
  | w, _ => w

/-- `Object.assign(\x7b\x7d, v)`: a fresh shallow copy of the own enumerable
properties of v.  For the object configurations the source clones this is a
copy of the key-value list; for a primitive it is the empty object (index
properties of strings are not modelled; no claim exercises them). -/
def assignClone : JsValue → JsValue
  | JsValue.obj fs => JsValue.obj fs
  | _ => JsValue.obj []

/-- Hexadecimal digit character for a value below 16, used by the JSON
string escaper. -/
def hexDigit (n : Nat) : Char :=
  if n < 10 then Char.ofNat (48 + n) else Char.ofNat (87 + n)

/-- JSON escaping of one character inside a string literal, as performed by
`JSON.stringify`. -/
def jsonEscapeChar (c : Char) : String :=
  if c = '"' then "\\\""
  else if c = '\\' then "\\\\"
  else if c = '\n' then "\\n"
  else if c = '\r' then "\\r"
  else if c = '\t' then "\\t"
  else if c = Char.ofNat 8 then "\\b"
  else if c = Char.ofNat 12 then "\\f"
  else if c.toNat < 32 then
    "\\u00" ++ String.singleton (hexDigit (c.toNat / 16)) ++ String.singleton (hexDigit (c.toNat % 16))
  else String.singleton c

/-- A JSON string literal for s, with the escaping of `JSON.stringify`. -/
def jsonQuote (s : String) : String :=
  "\"" ++ String.join (s.data.map jsonEscapeChar) ++ "\""

mutual

/-- `JSON.stringify` on the modelled JavaScript values, used by getCacheKey
to serialize the process-wide compiler configuration. -/
def jsonStringify : JsValue → String
  | JsValue.null => "null"
  | JsValue.bool b => if b then "true" else "false"
  | JsValue.num n => toString n
  | JsValue.str s => jsonQuote s
  | JsValue.obj fs => "\x7b" ++ jsonStringifyFields fs ++ "\x7d"

/-- The comma-separated field list inside a serialized JSON object. -/
def jsonStringifyFields : List (String × JsValue) → String
  | [] => ""
  | (k, v) :: rest =>
    jsonQuote k ++ ":" ++ jsonStringify v ++
      (if rest.isEmpty then "" else ",") ++ jsonStringifyFields rest

end

/-- JavaScript `s.endsWith(suffix)` for plain string arguments: does the
code-unit sequence of suffix end the code-unit sequence of s. -/
def jsEndsWith (s suffix : String) : Bool :=
  suffix.data.isSuffixOf s.data

/-- The truthiness of the instrument property of the options record, the only
part of options the source ever reads (`options.instrument`). -/
def instrFlag (options : JsValue) : Bool :=
  truthyOpt (getField options ("instrument"))

/-- The incremental state of `crypto.createHash`: the byte stream fed to the
digest so far, modelled at character granularity as a string (the UTF-8
encoding of Node buffers and strings is injective, so this abstraction is
faithful for equality reasoning). -/
structure Hasher where
  acc : String

/-- `crypto.createHash('md5')`: a hasher that has absorbed nothing yet. -/
def createHash : Hasher := Hasher.mk ""

/-- `hash.update(data)`: absorb more data into the stream to be digested. -/
def Hasher.update (h : Hasher) (s : String) : Hasher := Hasher.mk (h.acc ++ s)

/-- `hash.digest('hex')`: apply the digest function to the absorbed stream.
The MD5-to-hexadecimal digest itself is external library code and is passed
in as the function md5hex. -/
def Hasher.digestHex (h : Hasher) (md5hex : String → String) : String := md5hex h.acc

/-- The default compiler configuration the module starts from:
`\x7b module: tsc.ModuleKind.CommonJS, jsx: tsc.JsxEmit.React \x7d`.
In the TypeScript library ModuleKind.CommonJS is the number 1 and
JsxEmit.React is the number 2. -/
def defaultCompilerConfig : JsValue :=
  JsValue.obj [("module", JsValue.num 1), ("jsx", JsValue.num 2)]

/-- The module initialization of the process-wide compilerConfig (source
lines 11 to 26).  tsconfigExists models `fs.existsSync(tsconfigPath)`;
tsconfigRead models `require(tsconfigPath)`, none when the require call
throws (the catch block keeps the default). -/
def loadCompilerConfig (tsconfigExists : Bool) (tsconfigRead : Option JsValue) : JsValue :=
  if tsconfigExists then
    match tsconfigRead with
    | none => defaultCompilerConfig
    | some tsconfig =>
      if truthy tsconfig then
        match getField tsconfig ("compilerOptions") with
        | some co => if truthy co then co else defaultCompilerConfig
        | none => defaultCompilerConfig
      else defaultCompilerConfig
  else defaultCompilerConfig

/-- The second argument of `tsc.transpileModule`: the compiler options to use
and the name of the single compilation unit. -/
structure TranspileOptions where
  compilerOptions : JsValue
  fileName : String

/-- The result of `tsc.transpileModule`; the source only reads outputText. -/
structure TranspileOutput where
  outputText : String

/-- The exported `process(src, path, config, options)` (source lines 29 to
46).  transpileModule is the external TypeScript compiler entry point and
compilerConfig the process-wide configuration; src, path, config and options
are the arguments supplied by the test runner (config, the runner
configuration, is never read by the body). -/
def process (transpileModule : String → TranspileOptions → TranspileOutput)
    (compilerConfig : JsValue) (src path : String) (config options : JsValue) : String :=
  if jsEndsWith path (".ts") || jsEndsWith path (".tsx") then
    let compilerOptions :=
      if instrFlag options then
        setField (setField (deleteField (assignClone compilerConfig) ("sourceMap"))
          ("inlineSourceMap") (JsValue.bool true)) ("inlineSources") (JsValue.bool true)
      else compilerConfig
    (transpileModule src (TranspileOptions.mk compilerOptions path)).outputText
  else src

/-- The exported `getCacheKey(fileData, filePath, configStr, options)`
(source lines 48 to 63).  md5hex is the external digest, thisFile the bytes
of the implementation file (THIS_FILE), compilerConfig the process-wide
configuration. -/
def getCacheKey (md5hex : String → String) (thisFile : String) (compilerConfig : JsValue)
    (fileData filePath configStr : String) (options : JsValue) : String :=
  (((((((((((createHash.update thisFile).update ("\x00")).update fileData).update
    ("\x00")).update filePath).update ("\x00")).update configStr).update
    ("\x00")).update (jsonStringify compilerConfig)).update ("\x00")).update
    (if instrFlag options then "instrument" else "")).digestHex md5hex

/-- The mutable module-level state: the process-wide compilerConfig binding
(a let binding in the source, so reassignable in principle). -/
structure ModuleState where
  compilerConfig : JsValue

/-- `process` as a transformer of the module state: the body reads the
process-wide configuration and contains no assignment to it, so the state
comes back unchanged. -/
def processSt (transpileModule : String → TranspileOptions → TranspileOutput)
    (src path : String) (config options : JsValue) (s : ModuleState) :
    String × ModuleState :=
  (process transpileModule s.compilerConfig src path config options, s)

/-- `getCacheKey` as a transformer of the module state: the body reads the
process-wide configuration and contains no assignment to it, so the state
comes back unchanged. -/
def getCacheKeySt (md5hex : String → String) (thisFile : String)
    (fileData filePath configStr : String) (options : JsValue) (s : ModuleState) :
    String × ModuleState :=
  (getCacheKey md5hex thisFile s.compilerConfig fileData filePath configStr options, s)

/-- The digest input assembled by getCacheKey: the six fields in order,
separated by null bytes. -/
def cacheKeyMessage (thisFile fileData filePath configStr configJson marker : String) : String :=
  thisFile ++ "\x00" ++ fileData ++ "\x00" ++ filePath ++ "\x00" ++ configStr ++
    "\x00" ++ configJson ++ "\x00" ++ marker

/-- An injective stand-in for the abstract digest function, used to
instantiate hypotheses about it at concrete inputs. -/
def idHash : String → String := fun s => s

/-- A transpiler stand-in returning the input unchanged, used to instantiate
the abstract compiler entry point at concrete inputs. -/
def echoTranspile : String → TranspileOptions → TranspileOutput :=
  fun src _ => TranspileOutput.mk src

/-! ## Helper lemmas -/

/-- Strings with equal character data are equal. -/
theorem strData_inj {a b : String} (h : a.data = b.data) : a = b := by
  cases a; cases b; cases h; rfl

/-- getCacheKey digests exactly the six-field, null-separated message. -/
theorem getCacheKey_eq_message (md5hex : String → String) (thisFile : String)
    (cfg : JsValue) (f p c : String) (o : JsValue) :
    getCacheKey md5hex thisFile cfg f p c o =
      md5hex (cacheKeyMessage thisFile f p c (jsonStringify cfg)
        (if instrFlag o then "instrument" else "")) := by
  simp [getCacheKey, cacheKeyMessage, createHash, Hasher.update, Hasher.digestHex,
    String.append_assoc]

/-- Changing only the fileData field changes the digest input. -/
theorem cacheKeyMessage_field2 {tf f f2 p c j i : String}
    (h : cacheKeyMessage tf f p c j i = cacheKeyMessage tf f2 p c j i) : f = f2 := by
  have hd := congrArg String.data h
  simp [cacheKeyMessage, String.data_append, List.append_assoc] at hd
  exact strData_inj hd

/-- Changing only the filePath field changes the digest input. -/
theorem cacheKeyMessage_field3 {tf f p p2 c j i : String}
    (h : cacheKeyMessage tf f p c j i = cacheKeyMessage tf f p2 c j i) : p = p2 := by
  have hd := congrArg String.data h
  simp [cacheKeyMessage, String.data_append, List.append_assoc] at hd
  exact strData_inj hd

/-- Changing only the configStr field changes the digest input. -/
theorem cacheKeyMessage_field4 {tf f p c c2 j i : String}
    (h : cacheKeyMessage tf f p c j i = cacheKeyMessage tf f p c2 j i) : c = c2 := by
  have hd := congrArg String.data h
  simp [cacheKeyMessage, String.data_append, List.append_assoc] at hd
  exact strData_inj hd

/-- Changing only the instrument marker changes the digest input. -/
theorem cacheKeyMessage_field6 {tf f p c j i i2 : String}
    (h : cacheKeyMessage tf f p c j i = cacheKeyMessage tf f p c j i2) : i = i2 := by
  have hd := congrArg String.data h
  simp [cacheKeyMessage, String.data_append, List.append_assoc] at hd
  exact strData_inj hd

/-- Distinct instrument flags produce distinct markers. -/
theorem marker_ne {b b2 : Bool} (h : b ≠ b2) :
    (if b then "instrument" else "") ≠ (if b2 then "instrument" else "") := by
  cases b <;> cases b2 <;> simp_all

/-- Reading back a key just assigned on an object field list. -/
theorem getFieldList_set_self (fs : List (String × JsValue)) (k : String) (v : JsValue) :
    getFieldList (setFieldList fs k v) k = some v := by
  induction fs with
  | nil => simp [setFieldList, getFieldList]
  | cons head tail ih =>
    obtain ⟨hk, hv⟩ := head
    by_cases h : hk = k
    · simp [setFieldList, getFieldList, h]
    · simp [setFieldList, getFieldList, h, ih]

/-- Assignment to one key leaves reads of other keys unchanged. -/
theorem getFieldList_set_ne (fs : List (String × JsValue)) (key k2 : String) (v : JsValue)
    (h : k2 ≠ key) :
    getFieldList (setFieldList fs key v) k2 = getFieldList fs k2 := by
  induction fs with
  | nil =>
    simp only [setFieldList, getFieldList]
    rw [if_neg (fun hc => h hc.symm)]
  | cons head tail ih =>
    obtain ⟨hk, hv⟩ := head
    by_cases hke : hk = key
    · subst hke
      simp only [setFieldList, if_pos rfl, getFieldList]
      rw [if_neg (fun hc => h hc.symm), if_neg (fun hc => h hc.symm)]
    · simp only [setFieldList, if_neg hke, getFieldList]
      by_cases hk2 : hk = k2
      · rw [if_pos hk2, if_pos hk2]
      · rw [if_neg hk2, if_neg hk2]
        exact ih

/-- Reading a key just deleted from an object field list gives undefined. -/
theorem getFieldList_delete_self (fs : List (String × JsValue)) (k : String) :
    getFieldList (deleteFieldList fs k) k = none := by
  induction fs with
  | nil => simp [deleteFieldList, getFieldList]
  | cons head tail ih =>
    obtain ⟨hk, hv⟩ := head
    by_cases h : hk = k
    · simp [deleteFieldList, h, ih]
    · simp [deleteFieldList, getFieldList, h, ih]

/-- The instrumented effective configuration has no sourceMap entry and has
inlineSourceMap and inlineSources set to true. -/
theorem instrument_config_fields (cfg : JsValue) :
    getField (setField (setField (deleteField (assignClone cfg) ("sourceMap"))
        ("inlineSourceMap") (JsValue.bool true)) ("inlineSources") (JsValue.bool true))
        ("sourceMap") = none
    ∧ getField (setField (setField (deleteField (assignClone cfg) ("sourceMap"))
        ("inlineSourceMap") (JsValue.bool true)) ("inlineSources") (JsValue.bool true))
        ("inlineSourceMap") = some (JsValue.bool true)
    ∧ getField (setField (setField (deleteField (assignClone cfg) ("sourceMap"))
        ("inlineSourceMap") (JsValue.bool true)) ("inlineSources") (JsValue.bool true))
        ("inlineSources") = some (JsValue.bool true) := by
  obtain ⟨fs, hfs⟩ : ∃ fs, assignClone cfg = JsValue.obj fs := by
    cases cfg <;> exact ⟨_, rfl⟩
  rw [hfs]
  simp only [deleteField, setField, getField]
  refine ⟨?_, ?_, ?_⟩
  · rw [getFieldList_set_ne _ _ _ _ (by decide), getFieldList_set_ne _ _ _ _ (by decide)]
    exact getFieldList_delete_self fs _
  · rw [getFieldList_set_ne _ _ _ _ (by decide)]
    exact getFieldList_set_self _ _ _
  · exact getFieldList_set_self _ _ _

/-- A value with a defined property is an object and hence truthy. -/
theorem truthy_of_getField {t : JsValue} {k : String} {co : JsValue}
    (h : getField t k = some co) : truthy t = true := by
  cases t <;> simp_all [getField, truthy]

/-! ## Claim theorems -/

/-- Claim C1: getCacheKey returns the hexadecimal digest (md5hex applied to
the absorbed stream) of the ordered, null-byte-separated concatenation of
exactly six fields: the implementation-file fingerprint, fileData, filePath,
configStr, the JSON serialization of the process-wide compiler
configuration, and the marker "instrument" when options.instrument is truthy
and the empty string otherwise. -/
theorem claim_cache_key_digest_fields (md5hex : String → String) (thisFile : String)
    (cfg : JsValue) (fileData filePath configStr : String) (options : JsValue) :
    getCacheKey md5hex thisFile cfg fileData filePath configStr options =
      md5hex (thisFile ++ "\x00" ++ fileData ++ "\x00" ++ filePath ++ "\x00" ++
        configStr ++ "\x00" ++ jsonStringify cfg ++ "\x00" ++
        (if instrFlag options then "instrument" else "")) := by
  rw [getCacheKey_eq_message]
  simp [cacheKeyMessage]

/-- Claim C2, counterexample: two argument tuples that differ in the
fileData and filePath fields can produce the same digest input, and hence
the same key whatever the digest function is, because a field may itself
contain the null separator.  So keys do not differ for every pair of tuples
differing in at least one field. -/
theorem claim_cache_key_multi_field_collision :
    (("a\x00b", "c") ≠ (("a" : String), ("b\x00c" : String)))
    ∧ cacheKeyMessage ("TF") ("a\x00b") ("c") ("cs") ("\x7b\x7d") ("")
        = cacheKeyMessage ("TF") ("a") ("b\x00c") ("cs") ("\x7b\x7d") ("")
    ∧ getCacheKey idHash ("TF") (JsValue.obj []) ("a\x00b") ("c") ("cs") (JsValue.obj [])
        = getCacheKey idHash ("TF") (JsValue.obj []) ("a") ("b\x00c") ("cs") (JsValue.obj []) := by
  refine ⟨by decide, rfl, rfl⟩

/-- Claim C2, amended: if the digest function is injective then changing
exactly one of the four fields fileData, filePath, configStr or the
truthiness of options.instrument, while the other three are held fixed,
changes the key returned by getCacheKey. -/
theorem claim_cache_key_single_field_sensitivity
    (md5hex : String → String) (hinj : Function.Injective md5hex)
    (thisFile : String) (cfg : JsValue) (f f2 p p2 c c2 : String) (o o2 : JsValue)
    (hcase : (f ≠ f2 ∧ p = p2 ∧ c = c2 ∧ instrFlag o = instrFlag o2)
      ∨ (f = f2 ∧ p ≠ p2 ∧ c = c2 ∧ instrFlag o = instrFlag o2)
      ∨ (f = f2 ∧ p = p2 ∧ c ≠ c2 ∧ instrFlag o = instrFlag o2)
      ∨ (f = f2 ∧ p = p2 ∧ c = c2 ∧ instrFlag o ≠ instrFlag o2)) :
    getCacheKey md5hex thisFile cfg f p c o ≠ getCacheKey md5hex thisFile cfg f2 p2 c2 o2 := by
  intro heq
  rw [getCacheKey_eq_message, getCacheKey_eq_message] at heq
  have hm := hinj heq
  rcases hcase with ⟨h1, h2, h3, h4⟩ | ⟨h1, h2, h3, h4⟩ | ⟨h1, h2, h3, h4⟩ | ⟨h1, h2, h3, h4⟩
  · subst h2; subst h3; rw [h4] at hm; exact h1 (cacheKeyMessage_field2 hm)
  · subst h1; subst h3; rw [h4] at hm; exact h2 (cacheKeyMessage_field3 hm)
  · subst h1; subst h2; rw [h4] at hm; exact h3 (cacheKeyMessage_field4 hm)
  · subst h1; subst h2; subst h3; exact marker_ne h4 (cacheKeyMessage_field6 hm)

/-- Witness for the amended claim C2, at an injective digest stand-in and a
concrete pair of calls differing only in fileData. -/
theorem claim_cache_key_single_field_sensitivity_w :
    Function.Injective idHash
    ∧ (("a" : String) ≠ ("b" : String))
    ∧ getCacheKey idHash ("TF") defaultCompilerConfig ("a") ("p") ("c") (JsValue.obj [])
        ≠ getCacheKey idHash ("TF") defaultCompilerConfig ("b") ("p") ("c") (JsValue.obj []) := by
  have hinj : Function.Injective idHash := by intro a b hab; exact hab
  refine ⟨hinj, by decide, ?_⟩
  exact claim_cache_key_single_field_sensitivity idHash hinj ("TF") defaultCompilerConfig
    ("a") ("b") ("p") ("p") ("c") ("c") (JsValue.obj []) (JsValue.obj [])
    (Or.inl ⟨by decide, rfl, rfl, rfl⟩)

/-- Claim C3: for a fixed module state, getCacheKey and process are
deterministic and leave the module state unchanged: a second call with
identical arguments, sequenced after the first, returns the identical
result, and the state after each call is the state before it. -/
theorem claim_cache_key_idempotent_pure (md5hex : String → String)
    (thisFile fileData filePath configStr : String) (options : JsValue)
    (T : String → TranspileOptions → TranspileOutput)
    (src path : String) (config options2 : JsValue) (s : ModuleState) :
    (getCacheKeySt md5hex thisFile fileData filePath configStr options
        ((getCacheKeySt md5hex thisFile fileData filePath configStr options s).2)).1
      = (getCacheKeySt md5hex thisFile fileData filePath configStr options s).1
    ∧ (getCacheKeySt md5hex thisFile fileData filePath configStr options s).2 = s
    ∧ (processSt T src path config options2 ((processSt T src path config options2 s).2)).1
      = (processSt T src path config options2 s).1
    ∧ (processSt T src path config options2 s).2 = s :=
  ⟨rfl, rfl, rfl, rfl⟩

/-- Claim C4: when the file path ends neither in .ts nor in .tsx, process is
the identity transform on the source text and leaves the module state
unchanged. -/
theorem claim_process_passthrough (T : String → TranspileOptions → TranspileOutput)
    (src path : String) (config options : JsValue) (s : ModuleState)
    (h1 : jsEndsWith path (".ts") = false) (h2 : jsEndsWith path (".tsx") = false) :
    processSt T src path config options s = (src, s) := by
  simp [processSt, process, h1, h2]

/-- Witness for claim C4 at the non-TypeScript path foo.js. -/
theorem claim_process_passthrough_w :
    jsEndsWith ("foo.js") (".ts") = false
    ∧ jsEndsWith ("foo.js") (".tsx") = false
    ∧ processSt echoTranspile ("const x = 1") ("foo.js") (JsValue.obj []) (JsValue.obj [])
        (ModuleState.mk defaultCompilerConfig)
      = (("const x = 1"), ModuleState.mk defaultCompilerConfig) :=
  ⟨by decide, by decide,
    claim_process_passthrough echoTranspile ("const x = 1") ("foo.js") (JsValue.obj [])
      (JsValue.obj []) (ModuleState.mk defaultCompilerConfig) (by decide) (by decide)⟩

/-- Claim C5: for a path ending in .ts or .tsx, process returns the
outputText of the compiler invoked in transpile mode with fileName equal to
the path and with the effective configuration: the process-wide
configuration itself when options.instrument is falsy, otherwise a clone of
it with sourceMap removed and inlineSourceMap and inlineSources set to true
(the clone indeed has no sourceMap entry and has both inline options true). -/
theorem claim_process_transpiles (T : String → TranspileOptions → TranspileOutput)
    (src path : String) (config options : JsValue) (s : ModuleState)
    (h : jsEndsWith path (".ts") = true ∨ jsEndsWith path (".tsx") = true) :
    processSt T src path config options s =
      ((T src (TranspileOptions.mk
        (if instrFlag options then
          setField (setField (deleteField (assignClone s.compilerConfig) ("sourceMap"))
            ("inlineSourceMap") (JsValue.bool true)) ("inlineSources") (JsValue.bool true)
         else s.compilerConfig) path)).outputText, s)
    ∧ getField (setField (setField (deleteField (assignClone s.compilerConfig) ("sourceMap"))
        ("inlineSourceMap") (JsValue.bool true)) ("inlineSources") (JsValue.bool true))
        ("sourceMap") = none
    ∧ getField (setField (setField (deleteField (assignClone s.compilerConfig) ("sourceMap"))
        ("inlineSourceMap") (JsValue.bool true)) ("inlineSources") (JsValue.bool true))
        ("inlineSourceMap") = some (JsValue.bool true)
    ∧ getField (setField (setField (deleteField (assignClone s.compilerConfig) ("sourceMap"))
        ("inlineSourceMap") (JsValue.bool true)) ("inlineSources") (JsValue.bool true))
        ("inlineSources") = some (JsValue.bool true) := by
  obtain ⟨e1, e2, e3⟩ := instrument_config_fields s.compilerConfig
  refine ⟨?_, e1, e2, e3⟩
  rcases h with h | h <;> simp [processSt, process, h]

/-- Witness for claim C5 at the path a.ts with a concrete transpiler. -/
theorem claim_process_transpiles_w :
    (jsEndsWith ("a.ts") (".ts") = true ∨ jsEndsWith ("a.ts") (".tsx") = true)
    ∧ (processSt echoTranspile ("let y: number = 2") ("a.ts") (JsValue.obj [])
        (JsValue.obj []) (ModuleState.mk defaultCompilerConfig)).1 = ("let y: number = 2") := by
  have h : jsEndsWith ("a.ts") (".ts") = true ∨ jsEndsWith ("a.ts") (".tsx") = true :=
    Or.inl (by decide)
  have hc := claim_process_transpiles echoTranspile ("let y: number = 2") ("a.ts")
    (JsValue.obj []) (JsValue.obj []) (ModuleState.mk defaultCompilerConfig) h
  exact ⟨h, by rw [hc.1]; rfl⟩

/-- Claim C6: configuration loading is total and silently falls back to the
built-in default when the configuration file is missing, when reading or
parsing it fails, or when the parsed value lacks a compilerOptions key. -/
theorem claim_config_fallback_default (tsconfigExists : Bool)
    (tsconfigRead : Option JsValue) (t : JsValue)
    (h : tsconfigExists = false ∨ tsconfigRead = none
      ∨ (tsconfigRead = some t ∧ getField t ("compilerOptions") = none)) :
    loadCompilerConfig tsconfigExists tsconfigRead = defaultCompilerConfig := by
  rcases h with rfl | rfl | ⟨rfl, hg⟩
  · rfl
  · cases tsconfigExists <;> rfl
  · cases tsconfigExists <;> simp [loadCompilerConfig, hg]

/-- Witness for claim C6 with a missing configuration file. -/
theorem claim_config_fallback_default_w :
    ((false = false) ∨ (none : Option JsValue) = none
      ∨ ((none : Option JsValue) = some JsValue.null
          ∧ getField JsValue.null ("compilerOptions") = none))
    ∧ loadCompilerConfig false none = defaultCompilerConfig :=
  ⟨Or.inl rfl, claim_config_fallback_default false none JsValue.null (Or.inl rfl)⟩

/-- Claim C8: process never mutates the process-wide configuration: after a
call with a truthy instrument option the stored configuration, its sourceMap
entry included, is unchanged, and a subsequent call with a falsy instrument
option transpiles with the original configuration. -/
theorem claim_process_no_config_mutation (T : String → TranspileOptions → TranspileOutput)
    (src path src2 path2 : String) (config config2 oi o2 : JsValue) (s : ModuleState)
    (hi : instrFlag oi = true) (hf : instrFlag o2 = false)
    (hts : jsEndsWith path2 (".ts") = true) :
    ((processSt T src path config oi s).2).compilerConfig = s.compilerConfig
    ∧ getField ((processSt T src path config oi s).2).compilerConfig ("sourceMap")
        = getField s.compilerConfig ("sourceMap")
    ∧ processSt T src2 path2 config2 o2 ((processSt T src path config oi s).2)
        = ((T src2 (TranspileOptions.mk s.compilerConfig path2)).outputText,
            (processSt T src path config oi s).2) := by
  refine ⟨rfl, rfl, ?_⟩
  simp [processSt, process, hts, hf]

/-- Witness for claim C8: a concrete instrumented call leaves a
configuration that still carries its sourceMap entry. -/
theorem claim_process_no_config_mutation_w :
    instrFlag (JsValue.obj [("instrument", JsValue.bool true)]) = true
    ∧ instrFlag (JsValue.obj []) = false
    ∧ jsEndsWith ("b.ts") (".ts") = true
    ∧ ((processSt echoTranspile ("s1") ("a.ts") (JsValue.obj [])
        (JsValue.obj [("instrument", JsValue.bool true)])
        (ModuleState.mk (JsValue.obj [("sourceMap", JsValue.bool true)]))).2).compilerConfig
      = JsValue.obj [("sourceMap", JsValue.bool true)] := by
  refine ⟨by decide, by decide, by decide, ?_⟩
  exact (claim_process_no_config_mutation echoTranspile ("s1") ("a.ts") ("s2") ("b.ts")
    (JsValue.obj []) (JsValue.obj []) (JsValue.obj [("instrument", JsValue.bool true)])
    (JsValue.obj []) (ModuleState.mk (JsValue.obj [("sourceMap", JsValue.bool true)]))
    (by decide) (by decide) (by decide)).1

/-- Claim C9: process and getCacheKey depend on the options record only
through the truthiness of its instrument property: two options records whose
instrument properties have equal truthiness give identical results for both
operations, all other arguments being equal. -/
theorem claim_options_only_instrument (T : String → TranspileOptions → TranspileOutput)
    (md5hex : String → String) (thisFile src path : String) (config : JsValue)
    (fileData filePath configStr : String) (o1 o2 : JsValue) (s : ModuleState)
    (h : instrFlag o1 = instrFlag o2) :
    processSt T src path config o1 s = processSt T src path config o2 s
    ∧ getCacheKeySt md5hex thisFile fileData filePath configStr o1 s
        = getCacheKeySt md5hex thisFile fileData filePath configStr o2 s := by
  constructor
  · simp [processSt, process, h]
  · simp [getCacheKeySt, getCacheKey, h]

/-- Witness for claim C9 with two options records that agree on the
truthiness of instrument but nowhere else. -/
theorem claim_options_only_instrument_w :
    instrFlag (JsValue.obj [("instrument", JsValue.num 3), ("coverage", JsValue.bool true)])
      = instrFlag (JsValue.obj [("instrument", JsValue.bool true)])
    ∧ getCacheKeySt idHash ("TF") ("fd") ("fp") ("cs")
        (JsValue.obj [("instrument", JsValue.num 3), ("coverage", JsValue.bool true)])
        (ModuleState.mk defaultCompilerConfig)
      = getCacheKeySt idHash ("TF") ("fd") ("fp") ("cs")
        (JsValue.obj [("instrument", JsValue.bool true)])
        (ModuleState.mk defaultCompilerConfig) := by
  refine ⟨by decide, ?_⟩
  exact (claim_options_only_instrument echoTranspile idHash ("TF") ("s") ("a.ts")
    (JsValue.obj []) ("fd") ("fp") ("cs")
    (JsValue.obj [("instrument", JsValue.num 3), ("coverage", JsValue.bool true)])
    (JsValue.obj [("instrument", JsValue.bool true)])
    (ModuleState.mk defaultCompilerConfig) (by decide)).2

/-- Claim C10: when the configuration file exists and parses, a truthy
compilerOptions value of any shape is adopted wholesale as the process-wide
configuration, and a falsy one falls back to the built-in default. -/
theorem claim_config_adopts_truthy (t co : JsValue)
    (hget : getField t ("compilerOptions") = some co) :
    loadCompilerConfig true (some t) =
      (if truthy co then co else defaultCompilerConfig) := by
  have ht := truthy_of_getField hget
  simp [loadCompilerConfig, ht, hget]

/-- Witness for claim C10: a configuration file whose compilerOptions is the
truthy non-object string value legacy is adopted wholesale. -/
theorem claim_config_adopts_truthy_w :
    getField (JsValue.obj [("compilerOptions", JsValue.str ("legacy"))]) ("compilerOptions")
      = some (JsValue.str ("legacy"))
    ∧ loadCompilerConfig true (some (JsValue.obj [("compilerOptions", JsValue.str ("legacy"))]))
      = (if truthy (JsValue.str ("legacy")) then JsValue.str ("legacy")
          else defaultCompilerConfig) :=
  ⟨rfl, claim_config_adopts_truthy (JsValue.obj [("compilerOptions", JsValue.str ("legacy"))])
    (JsValue.str ("legacy")) rfl⟩
